import Mathlib

/-!
Verification of the firecrawl crawl orchestrator (rustyspider), shallowly
embedded from the Rust sources:
  crates/firecrawl-core/src/queue/mod.rs     (job payloads, job records)
  crates/firecrawl-core/src/queue/redis.rs   (RedisQueue: pop, ack, update_status)
  crates/firecrawl-core/src/crawl/mod.rs     (CrawlManager: counters, status)
  crates/firecrawl-core/src/worker/mod.rs    (Worker: job cycle, push sites)

The Redis store is modelled explicitly: lists are Lean lists (left = list
head = left end of the Redis list), string records are association lists,
counters are integers (Redis INCR and DECR operate on signed 64-bit values
and can go negative).  Each Rust method becomes a pure Lean function from
the relevant store fragment to the new store fragment plus its return
value.  Time is passed in as a parameter where the code reads the clock.
-/

namespace Firecrawl

/-! ## Job records and payloads (queue/mod.rs) -/

/-- ScrapeOptions is a large configuration record that the orchestrator
never inspects; every modelled operation only copies it around, so it is
embedded as an opaque wrapper.  The single field stands for the whole
record. -/
structure ScrapeOptions where
  url : String
  deriving DecidableEq, Repr

/-- ScrapeJobData from queue/mod.rs. -/
structure ScrapeJobData where
  url : String
  options : ScrapeOptions
  team_id : String
  crawl_id : Option String
  is_crawl_source : Bool
  deriving DecidableEq, Repr

/-- KickoffJobData from queue/mod.rs: note the optional limit and
max_depth and the includes and excludes lists carried by the payload. -/
structure KickoffJobData where
  url : String
  team_id : String
  crawl_id : String
  scrape_options : ScrapeOptions
  limit : Option Nat
  max_depth : Option Nat
  includes : List String
  excludes : List String
  deriving DecidableEq, Repr

/-- KickoffSitemapJobData from queue/mod.rs. -/
structure KickoffSitemapJobData where
  sitemap_url : String
  team_id : String
  crawl_id : String
  deriving DecidableEq, Repr

/-- JobPayload from queue/mod.rs. -/
inductive JobPayload where
  | scrape (d : ScrapeJobData)
  | kickoff (d : KickoffJobData)
  | kickoffSitemap (d : KickoffSitemapJobData)
  deriving DecidableEq, Repr

/-- JobPayload::crawl_id from queue/mod.rs: a Scrape payload may or may
not belong to a crawl; Kickoff and KickoffSitemap always do. -/
def JobPayload.crawl_id : JobPayload → Option String
  | .scrape d => d.crawl_id
  | .kickoff d => some d.crawl_id
  | .kickoffSitemap d => some d.crawl_id

/-- JobStatus from queue/mod.rs. -/
inductive JobStatus where
  | pending
  | active
  | completed
  | failed (reason : String)
  deriving DecidableEq, Repr

/-- Job from queue/mod.rs (the uuid id is modelled as a string). -/
structure Job where
  id : String
  payload : JobPayload
  status : JobStatus
  created_at : Int
  updated_at : Int
  deriving DecidableEq, Repr

/-! ## RedisQueue (queue/redis.rs)

State of the queue: the pending list (key firecrawl:jobs:queue), the
processing list (key firecrawl:jobs:processing) and the per-id job
records (keys firecrawl:jobs:data:{id}).  RPUSH appends on the right,
which is the end of the Lean list; BRPOPLPUSH pops the right end of the
source and pushes the left end (head) of the destination.  Records are
an association list where a SET prepends (lookup takes the first
match). -/

structure QueueState where
  pending : List String
  processing : List String
  data : List (String × Job)
  deriving DecidableEq, Repr

/-- GET of a job record: first binding for the id wins. -/
def getRecord (data : List (String × Job)) (id : String) : Option Job :=
  (data.find? (fun p => p.1 == id)).map (fun p => p.2)

/-- SET of a job record (overwrite). -/
def setRecord (data : List (String × Job)) (id : String) (j : Job) :
    List (String × Job) :=
  (id, j) :: data

/-- LREM key 0 value: removes every occurrence of the value. -/
def lrem (l : List String) (v : String) : List String :=
  l.filter (fun x => !(x == v))

/-- RedisQueue::pop (queue/redis.rs lines 60-87).  BRPOPLPUSH moves the
tail of pending to the head of processing (returning none on timeout
when pending is empty); then the job record is loaded: if present it is
rewritten with status Active and a fresh updated_at and returned, if
missing the id is LREMed from processing and none is returned.  The
parameter now stands for the clock read.  Ids are modelled as strings
that always parse. -/
def RedisQueue.pop (s : QueueState) (now : Int) : Option Job × QueueState :=
  match s.pending.getLast? with
  | none => (none, s)
  | some id =>
    let pending := s.pending.dropLast
    let processing := id :: s.processing
    match getRecord s.data id with
    | some job =>
      let job := { job with status := JobStatus.active, updated_at := now }
      (some job, { pending := pending, processing := processing,
                   data := setRecord s.data id job })
    | none =>
      (none, { pending := pending, processing := lrem processing id,
               data := s.data })

/-- RedisQueue::ack (queue/redis.rs lines 89-93): LREM of the id from
the processing list; the call always succeeds. -/
def RedisQueue.ack (s : QueueState) (id : String) : QueueState :=
  { s with processing := lrem s.processing id }

/-- RedisQueue::update_status (queue/redis.rs lines 106-120): read the
record, and only if it exists, write it back with the new status and a
fresh updated_at; a missing record is silently skipped and the call
returns Ok. -/
def RedisQueue.update_status (s : QueueState) (id : String)
    (st : JobStatus) (now : Int) : QueueState :=
  match getRecord s.data id with
  | some job =>
    let job := { job with status := st, updated_at := now }
    { s with data := setRecord s.data id job }
  | none => s

/-! ## CrawlManager (crawl/mod.rs)

Per-crawl state, namespaced by crawl id in Redis; the model carries the
keys of one crawl.  The count and active counters are integers: Redis
INCR and DECR work on signed values and an absent key reads as 0, while
the Rust accessors parse the stored value into u32 and fail on a
negative value. -/

/-- CrawlConfig from crawl/mod.rs: note there are no includes or
excludes fields. -/
structure CrawlConfig where
  id : String
  team_id : String
  base_url : String
  scrape_options : ScrapeOptions
  max_depth : Nat
  limit : Nat
  deriving DecidableEq, Repr

/-- CrawlStatus from crawl/mod.rs. -/
structure CrawlStatus where
  id : String
  status : String
  total : Nat
  completed : Nat
  active : Nat
  deriving DecidableEq, Repr

/-- ScrapeResult is opaque to the orchestrator; only the length of the
results list is ever read by the modelled operations, so the record is
embedded as a wrapper around its url. -/
structure ScrapeResult where
  url : String
  deriving DecidableEq, Repr

/-- The per-crawl keys of one crawl id. -/
structure CrawlState where
  config : Option CrawlConfig
  visited : List String
  count : Int
  active : Int
  results : List ScrapeResult
  robots : Option String
  deriving DecidableEq, Repr

/-- Reading a Redis counter into u32 as redis-rs does: an absent key is
0 (via unwrap_or in the Rust accessors, counters start at 0), a
negative stored value fails the conversion with a type error. -/
def readU32 (v : Int) : Except String Nat :=
  if v < 0 then Except.error "u32 conversion" else Except.ok v.toNat

/-- CrawlManager::lock_url (crawl/mod.rs lines 67-74): SADD on the
visited set, true iff newly inserted. -/
def CrawlManager.lock_url (s : CrawlState) (url : String) :
    Bool × CrawlState :=
  if url ∈ s.visited then (false, s)
  else (true, { s with visited := url :: s.visited })

/-- CrawlManager::increment_count (crawl/mod.rs lines 76-81): INCR,
returning the new value parsed as u32. -/
def CrawlManager.increment_count (s : CrawlState) :
    Except String Nat × CrawlState :=
  (readU32 (s.count + 1), { s with count := s.count + 1 })

/-- CrawlManager::get_count (crawl/mod.rs lines 83-88). -/
def CrawlManager.get_count (s : CrawlState) : Except String Nat :=
  readU32 s.count

/-- CrawlManager::increment_active_jobs (crawl/mod.rs lines 90-95). -/
def CrawlManager.increment_active_jobs (s : CrawlState) :
    Except String Nat × CrawlState :=
  (readU32 (s.active + 1), { s with active := s.active + 1 })

/-- CrawlManager::decrement_active_jobs (crawl/mod.rs lines 97-102):
a plain DECR with no lower bound, so the stored value always becomes
the old value minus one; the Rust function then parses the new value
into u32, which fails when the counter has gone negative. -/
def CrawlManager.decrement_active_jobs (s : CrawlState) :
    Except String Nat × CrawlState :=
  (readU32 (s.active - 1), { s with active := s.active - 1 })

/-- CrawlManager::get_active_count (crawl/mod.rs lines 104-109). -/
def CrawlManager.get_active_count (s : CrawlState) : Except String Nat :=
  readU32 s.active

/-- CrawlManager::get_status (crawl/mod.rs lines 130-157): none when no
config is stored; otherwise total is the count counter, active the
active counter, completed the LLEN of the results list, and the status
string is derived from active alone. -/
def CrawlManager.get_status (s : CrawlState) (crawl_id : String) :
    Except String (Option CrawlStatus) :=
  match s.config with
  | none => Except.ok none
  | some _ =>
    match CrawlManager.get_count s with
    | Except.error e => Except.error e
    | Except.ok total =>
      match CrawlManager.get_active_count s with
      | Except.error e => Except.error e
      | Except.ok active =>
        let status := if active = 0 then "completed" else "scraping"
        Except.ok (some { id := crawl_id, status := status, total := total,
                          completed := s.results.length, active := active })

/-! ## Worker (worker/mod.rs): job cycle and push helper

The side effects of the worker are modelled as an explicit trace of
attempted operations against the queue and the crawl manager, in
program order. -/

/-- One attempted effect of the worker against the shared store. -/
inductive Effect where
  | updateStatus (job_id : String) (st : JobStatus)
  | ackJob (job_id : String)
  | incrActive (crawl_id : String)
  | decrActive (crawl_id : String)
  | queuePush (payload : JobPayload)
  | saveConfig (c : CrawlConfig)
  | lockUrl (crawl_id url : String)
  | spawnRobotsFetch (robots_url : String)
  deriving DecidableEq, Repr

/-- Worker::push_job (worker/mod.rs lines 97-102): when the payload
carries a crawl id, increment that crawl's active counter first, then
push to the queue. -/
def Worker.push_job (p : JobPayload) : List Effect :=
  (match p.crawl_id with
   | some cid => [Effect.incrActive cid]
   | none => []) ++ [Effect.queuePush p]

/-- The outcomes the job cycle observes: whether the handler succeeded
and whether each best-effort follow-up call failed.  In the Rust code
every follow-up error is caught in an if-let and only logged, so none
of these outcomes changes the control flow. -/
structure CycleOutcomes where
  processOk : Bool
  failReason : String
  updateFails : Bool
  ackFails : Bool
  decrFails : Bool
  deriving DecidableEq, Repr

/-- Worker::handle_job_full_cycle (worker/mod.rs lines 62-95): on
handler success attempt update_status Completed, on handler error
attempt update_status Failed(reason); in both cases attempt ack, and
finally, when the payload carried a crawl id, attempt exactly one
decrement of that crawl's active counter.  Every attempt failure is
logged and swallowed (the if-let pattern in the source), so the
returned boolean (did the cycle itself return Ok) is always true. -/
def Worker.handle_job_full_cycle (crawl_id : Option String)
    (job_id : String) (oc : CycleOutcomes) : List Effect × Bool :=
  let statusEff :=
    if oc.processOk then Effect.updateStatus job_id JobStatus.completed
    else Effect.updateStatus job_id (JobStatus.failed oc.failReason)
  let tailEffs :=
    match crawl_id with
    | some cid => [Effect.decrActive cid]
    | none => []
  (statusEff :: Effect.ackJob job_id :: tailEffs, true)

/-! ## Worker::process_kickoff (worker/mod.rs lines 112-172)

URL handling: the Rust code uses url::Url for the sitemap and robots
derivations.  SimpleUrl models an already-normalized absolute http(s)
URL without query, fragment or userinfo, which is the fragment of
url::Url behaviour these derivations exercise. -/

structure SimpleUrl where
  scheme : String
  host : String
  path : String
  deriving DecidableEq, Repr

/-- Serialization of a SimpleUrl (url::Url::to_string). -/
def SimpleUrl.render (u : SimpleUrl) : String :=
  u.scheme ++ "://" ++ u.host ++ u.path

/-- Rust str::ends_with("/"): the last character of the string is a
slash.  Defined over the character list so that it evaluates inside the
kernel. -/
def endsWithSlash (s : String) : Bool :=
  s.data.getLast? == some '/'

/-- Split a character list at the first occurrence of "://": the part
before it and the part after it.  none when "://" does not occur. -/
def splitScheme : List Char → Option (List Char × List Char)
  | ':' :: '/' :: '/' :: rest => some ([], rest)
  | c :: cs => (splitScheme cs).map (fun p => (c :: p.1, p.2))
  | [] => none

/-- Split a character list on a separator character; as with string
splitting, the result always has at least one group. -/
def splitOnChar (sep : Char) : List Char → List (List Char)
  | [] => [[]]
  | c :: cs =>
    match splitOnChar sep cs with
    | [] => [[]]
    | g :: gs => if c = sep then [] :: g :: gs else (c :: g) :: gs

/-- Join path segments back with slashes. -/
def joinSegments : List (List Char) → List Char
  | [] => []
  | [g] => g
  | g :: gs => g ++ '/' :: joinSegments gs

/-- url::Url::parse restricted to simple absolute http(s) URLs: scheme,
host (with optional port), slash-separated path; an empty path is
normalized to "/".  Queries, fragments and userinfo are out of the
model. -/
def parseSimpleUrl (s : String) : Option SimpleUrl :=
  if s.data.contains '?' || s.data.contains '#' then none
  else
    match splitScheme s.data with
    | none => none
    | some (schemeChars, rest) =>
      let scheme := String.mk schemeChars
      if scheme = "http" ∨ scheme = "https" then
        match splitOnChar '/' rest with
        | [] => none
        | host :: pathParts =>
          if host.isEmpty then none
          else
            let path :=
              if pathParts.isEmpty then "/"
              else String.mk ('/' :: joinSegments pathParts)
            some { scheme := scheme, host := String.mk host, path := path }
      else none

/-- The sitemap URL derivation of Worker::process_kickoff (worker/mod.rs
lines 137-144): when the seed URL ends in "/", "sitemap.xml" is appended
to it verbatim (no parsing); otherwise the URL is parsed and its path is
replaced with /sitemap.xml (none models the Url::parse error). -/
def deriveSitemapUrl (s : String) : Option String :=
  if endsWithSlash s then some (s ++ "sitemap.xml")
  else (parseSimpleUrl s).map
    (fun u => SimpleUrl.render { u with path := "/sitemap.xml" })

/-- The robots URL derivation of Worker::process_kickoff (worker/mod.rs
lines 152-157): always parse and replace the path with /robots.txt. -/
def deriveRobotsUrl (s : String) : Option String :=
  (parseSimpleUrl s).map
    (fun u => SimpleUrl.render { u with path := "/robots.txt" })

/-- What the specification says the sitemap URL is: the seed URL with
its path replaced by /sitemap.xml.  Used only to compare the source
derivation against the specification sentence. -/
def specSitemapUrl (u : SimpleUrl) : String :=
  SimpleUrl.render { u with path := "/sitemap.xml" }

/-- The CrawlConfig built by Worker::process_kickoff (worker/mod.rs
lines 116-123): id, team id, base url and scrape options are taken from
the payload, while max_depth and limit are the hard-coded defaults 10
and 1000 (the payload fields limit, max_depth, includes and excludes
are not consulted). -/
def Worker.buildConfig (d : KickoffJobData) : CrawlConfig :=
  { id := d.crawl_id, team_id := d.team_id, base_url := d.url,
    scrape_options := d.scrape_options, max_depth := 10, limit := 1000 }

/-- Worker::process_kickoff (worker/mod.rs lines 112-172) as an effect
trace.  seedLocked is the value returned by lock_url for the seed URL.
The boolean result records whether the handler returned Ok: a failing
URL parse in the sitemap derivation aborts after the seed push, and a
failing parse in the robots derivation aborts after the sitemap push
(the question-mark operator in the source). -/
def Worker.process_kickoff (d : KickoffJobData) (seedLocked : Bool) :
    List Effect × Bool :=
  let config := Worker.buildConfig d
  let seedEffs :=
    Effect.lockUrl d.crawl_id d.url ::
      (if seedLocked then
        Worker.push_job (JobPayload.scrape
          { url := d.url, options := d.scrape_options, team_id := d.team_id,
            crawl_id := some d.crawl_id, is_crawl_source := true })
       else [])
  match deriveSitemapUrl d.url with
  | none => (Effect.saveConfig config :: seedEffs, false)
  | some su =>
    let sitemapEffs := Worker.push_job (JobPayload.kickoffSitemap
      { sitemap_url := su, team_id := d.team_id, crawl_id := d.crawl_id })
    match deriveRobotsUrl d.url with
    | none => (Effect.saveConfig config :: (seedEffs ++ sitemapEffs), false)
    | some ru =>
      (Effect.saveConfig config ::
        (seedEffs ++ sitemapEffs ++ [Effect.spawnRobotsFetch ru]), true)

/-! ## The Scrape push sites as a small-step concurrent system

Scrape jobs carrying a crawl id are pushed at exactly three places in
worker/mod.rs: the kickoff seed push (lines 126-135), the sitemap
process expansion (lines 193-208) and link discovery (lines 274-289).
The seed site is lock_url followed directly by a push; the other two
sites are lock_url, then get_count, then (when the read value is below
the config limit) increment_count and the push.  Each Redis primitive
(SADD, GET, INCR) is atomic, but the sites interleave between
primitives.  A thread below is one pending iteration of one site for
one candidate URL of a fixed crawl; the step relation interleaves the
primitive operations of the threads over the shared per-crawl state. -/

/-- Program counter of one site iteration.  locked means lock_url has
returned true; got c means the guarded site has read count value c;
counted means increment_count has run and only the push remains. -/
inductive SitePC where
  | start
  | locked
  | got (c : Nat)
  | counted
  | done
  deriving DecidableEq, Repr

/-- One in-flight iteration of a push site.  guarded is true for the
sitemap-process and link-discovery sites (which consult the count
guard) and false for the kickoff seed site (which pushes directly
after the lock). -/
structure SiteThread where
  guarded : Bool
  url : String
  pc : SitePC
  deriving DecidableEq, Repr

/-- Shared per-crawl state plus the thread pool and the trace of Scrape
pushes (urls, in push order) performed so far. -/
structure FrontierState where
  threads : List SiteThread
  visited : List String
  count : Nat
  pushes : List String
  deriving DecidableEq, Repr

/-- One atomic step of one thread, chosen anywhere in the pool.  The
thread list is decomposed as pre ++ t :: post and t steps to its
successor in place. -/
inductive FStep (limit : Nat) : FrontierState → FrontierState → Prop where
  | lockFail (s : FrontierState) (pre post : List SiteThread)
      (t : SiteThread) (ht : s.threads = pre ++ t :: post)
      (hpc : t.pc = SitePC.start) (hv : t.url ∈ s.visited) :
      FStep limit s
        { s with threads := pre ++ { t with pc := SitePC.done } :: post }
  | lockOk (s : FrontierState) (pre post : List SiteThread)
      (t : SiteThread) (ht : s.threads = pre ++ t :: post)
      (hpc : t.pc = SitePC.start) (hv : t.url ∉ s.visited) :
      FStep limit s
        { s with threads := pre ++ { t with pc := SitePC.locked } :: post,
                 visited := t.url :: s.visited }
  | seedPush (s : FrontierState) (pre post : List SiteThread)
      (t : SiteThread) (ht : s.threads = pre ++ t :: post)
      (hg : t.guarded = false) (hpc : t.pc = SitePC.locked) :
      FStep limit s
        { s with threads := pre ++ { t with pc := SitePC.done } :: post,
                 pushes := s.pushes ++ [t.url] }
  | readCount (s : FrontierState) (pre post : List SiteThread)
      (t : SiteThread) (ht : s.threads = pre ++ t :: post)
      (hg : t.guarded = true) (hpc : t.pc = SitePC.locked) :
      FStep limit s
        { s with threads := pre ++ { t with pc := SitePC.got s.count } :: post }
  | guardFail (s : FrontierState) (pre post : List SiteThread)
      (t : SiteThread) (c : Nat) (ht : s.threads = pre ++ t :: post)
      (hpc : t.pc = SitePC.got c) (hc : ¬ c < limit) :
      FStep limit s
        { s with threads := pre ++ { t with pc := SitePC.done } :: post }
  | incrCount (s : FrontierState) (pre post : List SiteThread)
      (t : SiteThread) (c : Nat) (ht : s.threads = pre ++ t :: post)
      (hpc : t.pc = SitePC.got c) (hc : c < limit) :
      FStep limit s
        { s with threads := pre ++ { t with pc := SitePC.counted } :: post,
                 count := s.count + 1 }
  | pushCounted (s : FrontierState) (pre post : List SiteThread)
      (t : SiteThread) (ht : s.threads = pre ++ t :: post)
      (hg : t.guarded = true) (hpc : t.pc = SitePC.counted) :
      FStep limit s
        { s with threads := pre ++ { t with pc := SitePC.done } :: post,
                 pushes := s.pushes ++ [t.url] }

/-- A push-site iteration waiting to run: the site kind and the URL it
will offer. -/
structure SiteSpec where
  guarded : Bool
  url : String
  deriving DecidableEq, Repr

/-- All threads at start, empty visited set, zero count, no pushes:
the state of a fresh crawl. -/
def initState (sites : List SiteSpec) : FrontierState :=
  { threads := sites.map
      (fun c => { guarded := c.guarded, url := c.url, pc := SitePC.start }),
    visited := [], count := 0, pushes := [] }

/-- States reachable by interleaving the given site iterations over a
fresh crawl with the given config limit. -/
def Reachable (limit : Nat) (sites : List SiteSpec)
    (s : FrontierState) : Prop :=
  Relation.ReflTransGen (FStep limit) (initState sites) s

/-- A thread holds the dedup token for u when its lock_url on u has
returned true and its site iteration has not finished. -/
def SitePC.isArmed : SitePC → Bool
  | SitePC.locked => true
  | SitePC.got _ => true
  | SitePC.counted => true
  | _ => false

def armedFor (u : String) (t : SiteThread) : Bool :=
  t.url == u && t.pc.isArmed

/-- Pushes already performed for u plus threads currently holding the
dedup token for u. -/
def urlTokens (u : String) (s : FrontierState) : Nat :=
  s.pushes.count u + s.threads.countP (armedFor u)

/-- The dedup invariant: for every URL there is at most one token, and
a URL outside the visited set has no token. -/
def FrontierInv (s : FrontierState) : Prop :=
  ∀ u, urlTokens u s ≤ 1 ∧ (u ∉ s.visited → urlTokens u s = 0)

/-! ## Sequential executions of the push sites

One site iteration run to completion before the next starts (no
interleaving between lock, count read, count increment and push): the
single-worker special case of the step system above. -/

structure SeqState where
  visited : List String
  count : Nat
  pushes : List String
  deriving DecidableEq, Repr

/-- One full push-site iteration, sequentially: lock_url; for a guarded
site (sitemap process expansion, link discovery) read count and, when
below the limit, increment it and push; for the seed site push
directly. -/
def runSite (limit : Nat) (s : SeqState) (c : SiteSpec) : SeqState :=
  if c.url ∈ s.visited then s
  else
    let s1 : SeqState := { s with visited := c.url :: s.visited }
    if c.guarded then
      if s1.count < limit then
        { s1 with count := s1.count + 1, pushes := s1.pushes ++ [c.url] }
      else s1
    else { s1 with pushes := s1.pushes ++ [c.url] }

def initSeqState : SeqState :=
  { visited := [], count := 0, pushes := [] }

/-- Run a list of site iterations sequentially over a fresh crawl. -/
def runSites (limit : Nat) (calls : List SiteSpec) : SeqState :=
  calls.foldl (runSite limit) initSeqState

/-! ## Concrete inputs used by counterexamples and witnesses -/

def cexSites : List SiteSpec :=
  [{ guarded := false, url := "https://e.test/" },
   { guarded := true, url := "https://e.test/a" }]

def cexSeed (pc : SitePC) : SiteThread :=
  { guarded := false, url := "https://e.test/", pc := pc }

def cexLink (pc : SitePC) : SiteThread :=
  { guarded := true, url := "https://e.test/a", pc := pc }

def cexS1 : FrontierState :=
  { threads := [cexSeed SitePC.locked, cexLink SitePC.start],
    visited := ["https://e.test/"], count := 0, pushes := [] }

def cexS2 : FrontierState :=
  { threads := [cexSeed SitePC.done, cexLink SitePC.start],
    visited := ["https://e.test/"], count := 0,
    pushes := ["https://e.test/"] }

def cexS3 : FrontierState :=
  { threads := [cexSeed SitePC.done, cexLink SitePC.locked],
    visited := ["https://e.test/a", "https://e.test/"], count := 0,
    pushes := ["https://e.test/"] }

def cexS4 : FrontierState :=
  { threads := [cexSeed SitePC.done, cexLink (SitePC.got 0)],
    visited := ["https://e.test/a", "https://e.test/"], count := 0,
    pushes := ["https://e.test/"] }

def cexS5 : FrontierState :=
  { threads := [cexSeed SitePC.done, cexLink SitePC.counted],
    visited := ["https://e.test/a", "https://e.test/"], count := 1,
    pushes := ["https://e.test/"] }

def cexS6 : FrontierState :=
  { threads := [cexSeed SitePC.done, cexLink SitePC.done],
    visited := ["https://e.test/a", "https://e.test/"], count := 1,
    pushes := ["https://e.test/", "https://e.test/a"] }

def wPayload : JobPayload :=
  JobPayload.scrape
    { url := "https://w.test/", options := { url := "" }, team_id := "t",
      crawl_id := some "wc", is_crawl_source := true }

def wOutcomes : CycleOutcomes :=
  { processOk := false, failReason := "boom", updateFails := true,
    ackFails := true, decrFails := true }

def wCrawlState : CrawlState :=
  { config := some
      { id := "c", team_id := "t", base_url := "https://w.test/",
        scrape_options := { url := "" }, max_depth := 10, limit := 1000 },
    visited := [], count := 2, active := 0,
    results := [{ url := "https://w.test/" }, { url := "https://w.test/a" }],
    robots := none }

def negCrawlState : CrawlState :=
  { config := none, visited := [], count := 0, active := 0, results := [],
    robots := none }

def cexKickoff : KickoffJobData :=
  { url := "https://e.test/docs", team_id := "team", crawl_id := "cid",
    scrape_options := { url := "" }, limit := some 5, max_depth := some 3,
    includes := ["docs"], excludes := ["login"] }

def cexKickoffSlash : KickoffJobData :=
  { url := "https://e.test/a/", team_id := "team", crawl_id := "cid",
    scrape_options := { url := "" }, limit := none, max_depth := none,
    includes := [], excludes := [] }

def wKickoff : KickoffJobData :=
  { url := "https://w.test/a/b", team_id := "t", crawl_id := "c",
    scrape_options := { url := "" }, limit := none, max_depth := none,
    includes := [], excludes := [] }

def wJob : Job :=
  { id := "j1",
    payload := JobPayload.scrape
      { url := "https://w.test/", options := { url := "" }, team_id := "t",
        crawl_id := none, is_crawl_source := false },
    status := JobStatus.pending, created_at := 5, updated_at := 5 }

def wQueue : QueueState :=
  { pending := ["j1"], processing := [], data := [("j1", wJob)] }

def wQueueEmpty : QueueState :=
  { pending := [], processing := ["j9"], data := [] }

lemma countP_decomp (pre post : List SiteThread) (t : SiteThread)
    (p : SiteThread → Bool) :
    (pre ++ t :: post).countP p =
      pre.countP p + post.countP p + (if p t then 1 else 0) := by
  simp [List.countP_append, List.countP_cons]
  omega

lemma boolIf_eq_one {b : Bool} (h : b = true) :
    (if b then 1 else 0) = 1 := by simp [h]

lemma boolIf_eq_zero {b : Bool} (h : b = false) :
    (if b then 1 else 0) = 0 := by simp [h]

lemma armedFor_false (u : String) (t : SiteThread)
    (h : t.pc.isArmed = false) : armedFor u t = false := by
  simp [armedFor, h]

lemma armedFor_true (u : String) (t : SiteThread)
    (h : t.pc.isArmed = true) : armedFor u t = (t.url == u) := by
  simp [armedFor, h]

lemma count_single (u v : String) :
    List.count u [v] = if v == u then 1 else 0 := by
  simp [List.count_cons]

lemma frontierInv_step {limit : Nat} {s s' : FrontierState}
    (h : FStep limit s s') (hinv : FrontierInv s) : FrontierInv s' := by
  cases h with
  | lockFail pre post t ht hpc hv =>
    intro u
    obtain ⟨h1, h2⟩ := hinv u
    simp only [urlTokens, ht, countP_decomp] at h1 h2 ⊢
    rw [boolIf_eq_zero (armedFor_false u t (by rw [hpc]; rfl))] at h1 h2
    rw [boolIf_eq_zero (armedFor_false u { t with pc := SitePC.done } rfl)]
    exact ⟨h1, h2⟩
  | lockOk pre post t ht hpc hv =>
    intro u
    obtain ⟨h1, h2⟩ := hinv u
    simp only [urlTokens, ht, countP_decomp] at h1 h2 ⊢
    rw [boolIf_eq_zero (armedFor_false u t (by rw [hpc]; rfl))] at h1 h2
    have harm : armedFor u { t with pc := SitePC.locked } = (t.url == u) :=
      armedFor_true u { t with pc := SitePC.locked } rfl
    by_cases hu : t.url = u
    · subst hu
      rw [boolIf_eq_one (by rw [harm]; exact beq_self_eq_true t.url)]
      have h0 := h2 hv
      exact ⟨by omega, fun hnv => absurd (List.mem_cons_self _ _) hnv⟩
    · rw [boolIf_eq_zero (by rw [harm]; exact beq_eq_false_iff_ne.mpr hu)]
      refine ⟨by omega, fun hnv => ?_⟩
      have h0 := h2 (fun hm => hnv (List.mem_cons_of_mem _ hm))
      omega
  | seedPush pre post t ht hg hpc =>
    intro u
    obtain ⟨h1, h2⟩ := hinv u
    simp only [urlTokens, ht, countP_decomp, List.count_append, count_single]
      at h1 h2 ⊢
    rw [boolIf_eq_zero (armedFor_false u { t with pc := SitePC.done } rfl)]
    have harm : armedFor u t = (t.url == u) := armedFor_true u t (by rw [hpc]; rfl)
    by_cases hu : t.url = u
    · rw [boolIf_eq_one (by rw [harm, hu]; exact beq_self_eq_true u)] at h1 h2
      rw [boolIf_eq_one (by rw [hu]; exact beq_self_eq_true u)]
      refine ⟨by omega, fun hnv => ?_⟩
      have h0 := h2 hnv
      omega
    · rw [boolIf_eq_zero (by rw [harm]; exact beq_eq_false_iff_ne.mpr hu)]
        at h1 h2
      rw [boolIf_eq_zero (beq_eq_false_iff_ne.mpr hu)]
      refine ⟨by omega, fun hnv => ?_⟩
      have h0 := h2 hnv
      omega
  | readCount pre post t ht hg hpc =>
    intro u
    obtain ⟨h1, h2⟩ := hinv u
    simp only [urlTokens, ht, countP_decomp] at h1 h2 ⊢
    rw [armedFor_true u t (by rw [hpc]; rfl)] at h1 h2
    rw [armedFor_true u { t with pc := SitePC.got s.count } rfl]
    exact ⟨h1, h2⟩
  | guardFail pre post t c ht hpc hc =>
    intro u
    obtain ⟨h1, h2⟩ := hinv u
    simp only [urlTokens, ht, countP_decomp] at h1 h2 ⊢
    rw [armedFor_true u t (by rw [hpc]; rfl)] at h1 h2
    rw [boolIf_eq_zero (armedFor_false u { t with pc := SitePC.done } rfl)]
    by_cases hu : t.url = u
    · rw [boolIf_eq_one (by rw [hu]; exact beq_self_eq_true u)] at h1 h2
      refine ⟨by omega, fun hnv => ?_⟩
      have h0 := h2 hnv
      omega
    · rw [boolIf_eq_zero (beq_eq_false_iff_ne.mpr hu)] at h1 h2
      exact ⟨by omega, fun hnv => by have h0 := h2 hnv; omega⟩
  | incrCount pre post t c ht hpc hc =>
    intro u
    obtain ⟨h1, h2⟩ := hinv u
    simp only [urlTokens, ht, countP_decomp] at h1 h2 ⊢
    rw [armedFor_true u t (by rw [hpc]; rfl)] at h1 h2
    rw [armedFor_true u { t with pc := SitePC.counted } rfl]
    exact ⟨h1, h2⟩
  | pushCounted pre post t ht hg hpc =>
    intro u
    obtain ⟨h1, h2⟩ := hinv u
    simp only [urlTokens, ht, countP_decomp, List.count_append, count_single]
      at h1 h2 ⊢
    rw [boolIf_eq_zero (armedFor_false u { t with pc := SitePC.done } rfl)]
    have harm : armedFor u t = (t.url == u) := armedFor_true u t (by rw [hpc]; rfl)
    by_cases hu : t.url = u
    · rw [boolIf_eq_one (by rw [harm, hu]; exact beq_self_eq_true u)] at h1 h2
      rw [boolIf_eq_one (by rw [hu]; exact beq_self_eq_true u)]
      refine ⟨by omega, fun hnv => ?_⟩
      have h0 := h2 hnv
      omega
    · rw [boolIf_eq_zero (by rw [harm]; exact beq_eq_false_iff_ne.mpr hu)]
        at h1 h2
      rw [boolIf_eq_zero (beq_eq_false_iff_ne.mpr hu)]
      refine ⟨by omega, fun hnv => ?_⟩
      have h0 := h2 hnv
      omega

lemma frontierInv_init (sites : List SiteSpec) :
    FrontierInv (initState sites) := by
  intro u
  have hz : urlTokens u (initState sites) = 0 := by
    simp only [urlTokens, initState, List.count_nil, Nat.zero_add,
      List.countP_eq_zero]
    intro t hmem
    simp only [List.mem_map] at hmem
    obtain ⟨c, _, rfl⟩ := hmem
    simp [armedFor, SitePC.isArmed]
  rw [hz]
  exact ⟨Nat.zero_le 1, fun _ => rfl⟩

lemma frontierInv_reachable {limit : Nat} {sites : List SiteSpec}
    {s : FrontierState} (h : Reachable limit sites s) : FrontierInv s := by
  induction h with
  | refl => exact frontierInv_init sites
  | tail _ hstep ih => exact frontierInv_step hstep ih

lemma runSite_bound (limit k : Nat) (s : SeqState) (c : SiteSpec)
    (h1 : s.count ≤ limit) (h2 : s.pushes.length ≤ s.count + k) :
    (runSite limit s c).count ≤ limit ∧
    (runSite limit s c).pushes.length ≤
      (runSite limit s c).count + (k + (if !c.guarded then 1 else 0)) := by
  by_cases hv : c.url ∈ s.visited
  · simp only [runSite, if_pos hv]
    refine ⟨h1, ?_⟩
    split <;> omega
  · by_cases hg : c.guarded = true
    · by_cases hc : s.count < limit
      · simp [runSite, if_neg hv, hg, if_pos hc]
        omega
      · simp [runSite, if_neg hv, hg, if_neg hc]
        exact ⟨h1, h2⟩
    · have hg' : c.guarded = false := by
        revert hg
        cases c.guarded <;> simp
      simp [runSite, if_neg hv, hg']
      omega

lemma runSites_aux (limit : Nat) (calls : List SiteSpec) :
    ∀ (s : SeqState) (k : Nat),
      s.count ≤ limit → s.pushes.length ≤ s.count + k →
      (calls.foldl (runSite limit) s).count ≤ limit ∧
      (calls.foldl (runSite limit) s).pushes.length ≤
        (calls.foldl (runSite limit) s).count +
          (k + calls.countP (fun c => !c.guarded)) := by
  induction calls with
  | nil =>
    intro s k h1 h2
    simp only [List.foldl_nil, List.countP_nil]
    exact ⟨h1, by omega⟩
  | cons c cs ih =>
    intro s k h1 h2
    simp only [List.foldl_cons, List.countP_cons]
    have hstep := runSite_bound limit k s c h1 h2
    obtain ⟨ih1, ih2⟩ := ih (runSite limit s c)
      (k + (if !c.guarded then 1 else 0)) hstep.1 hstep.2
    refine ⟨ih1, ?_⟩
    set a := (if !c.guarded then 1 else 0) with ha
    omega

/-! ## Claim theorems -/

/-- Claim C1, counterexample: with configured limit 1, a reachable
execution of the push sites (one kickoff seed site, one guarded site)
pushes 2 Scrape jobs for the crawl, because the seed push neither
consults nor increments the count counter.  The claim that the total
number of Scrape jobs pushed never exceeds the limit is therefore false
on the code. -/
theorem frontier_limit_exceeded_cex :
    ∃ sf, Reachable 1 cexSites sf ∧ 1 < sf.pushes.length := by
  refine ⟨cexS6, ?_, by decide⟩
  have st1 : FStep 1 (initState cexSites) cexS1 :=
    FStep.lockOk (initState cexSites) [] [cexLink SitePC.start]
      (cexSeed SitePC.start) rfl rfl (by decide)
  have st2 : FStep 1 cexS1 cexS2 :=
    FStep.seedPush cexS1 [] [cexLink SitePC.start]
      (cexSeed SitePC.locked) rfl rfl rfl
  have st3 : FStep 1 cexS2 cexS3 :=
    FStep.lockOk cexS2 [cexSeed SitePC.done] []
      (cexLink SitePC.start) rfl rfl (by decide)
  have st4 : FStep 1 cexS3 cexS4 :=
    FStep.readCount cexS3 [cexSeed SitePC.done] []
      (cexLink SitePC.locked) rfl rfl rfl
  have st5 : FStep 1 cexS4 cexS5 :=
    FStep.incrCount cexS4 [cexSeed SitePC.done] []
      (cexLink (SitePC.got 0)) 0 rfl rfl (by decide)
  have st6 : FStep 1 cexS5 cexS6 :=
    FStep.pushCounted cexS5 [cexSeed SitePC.done] []
      (cexLink SitePC.counted) rfl rfl rfl
  exact Relation.ReflTransGen.head st1 (Relation.ReflTransGen.head st2
    (Relation.ReflTransGen.head st3 (Relation.ReflTransGen.head st4
      (Relation.ReflTransGen.head st5 (Relation.ReflTransGen.head st6
        Relation.ReflTransGen.refl)))))

/-- Claim C1, amended: in sequential executions of the push sites (each
site iteration runs to completion before the next starts), the count
counter never exceeds the configured limit and the total number of
Scrape jobs pushed for the crawl never exceeds the limit plus the
number of kickoff seed-site iterations: the count-guarded sites
(sitemap process expansion and link discovery) stay within the limit,
while each seed push is outside the count budget.  Under concurrent
interleavings even these bounds can be exceeded, because the count
guard is a separate read followed by a separate increment. -/
theorem seq_scrape_push_bound (limit : Nat) (calls : List SiteSpec) :
    (runSites limit calls).count ≤ limit ∧
    (runSites limit calls).pushes.length ≤
      limit + calls.countP (fun c => !c.guarded) := by
  have h := runSites_aux limit calls initSeqState 0
    (by simp [initSeqState]) (by simp [initSeqState])
  obtain ⟨h1, h2⟩ := h
  exact ⟨h1, by unfold runSites; omega⟩

/-- Claim C3: for a fixed crawl, every site that pushes a Scrape job
first runs lock_url (atomic SADD on the visited set) and pushes only
when the URL was newly inserted; consequently, in every state reachable
by any interleaving of the push sites, the push trace contains any
given URL at most once. -/
theorem scrape_pushed_at_most_once {limit : Nat} {sites : List SiteSpec}
    {s : FrontierState} (h : Reachable limit sites s) (u : String) :
    s.pushes.count u ≤ 1 := by
  have hinv := frontierInv_reachable h
  have h1 := (hinv u).1
  simp only [urlTokens] at h1
  omega

/-- Claim C3, witness: the theorem applied to a concrete reachable
state. -/
theorem scrape_pushed_at_most_once_witness :
    Reachable 5 [{ guarded := true, url := "https://w.test/a" }]
      (initState [{ guarded := true, url := "https://w.test/a" }]) ∧
    (initState [{ guarded := true, url := "https://w.test/a" }]).pushes.count
      "https://w.test/a" ≤ 1 :=
  ⟨Relation.ReflTransGen.refl,
   @scrape_pushed_at_most_once 5 [{ guarded := true, url := "https://w.test/a" }]
     (initState [{ guarded := true, url := "https://w.test/a" }])
     Relation.ReflTransGen.refl "https://w.test/a"⟩

/-- Claim C2: for every payload carrying a crawl id, push_job attempts
the active-counter increment before the queue push, and the job cycle
attempts exactly one decrement of that crawl's active counter after the
terminal status update and ack, for every combination of handler
outcome and best-effort failures of the status update, the ack and the
decrement itself; the cycle always returns Ok. -/
theorem push_job_and_cycle_accounting (p : JobPayload) (cid : String)
    (job_id : String) (oc : CycleOutcomes) (h : p.crawl_id = some cid) :
    Worker.push_job p = [Effect.incrActive cid, Effect.queuePush p] ∧
    (Worker.handle_job_full_cycle p.crawl_id job_id oc).1.count
      (Effect.decrActive cid) = 1 ∧
    (Worker.handle_job_full_cycle p.crawl_id job_id oc).2 = true := by
  refine ⟨?_, ?_, rfl⟩
  · simp [Worker.push_job, h]
  · cases hp : oc.processOk <;>
      simp [Worker.handle_job_full_cycle, h, hp, List.count_cons,
        List.count_nil]

/-- Claim C2, witness: a Scrape payload bound to crawl wc, with a
failing handler and failing status update, ack and decrement calls. -/
theorem push_job_and_cycle_accounting_witness :
    wPayload.crawl_id = some "wc" ∧
    Worker.push_job wPayload =
      [Effect.incrActive "wc", Effect.queuePush wPayload] ∧
    (Worker.handle_job_full_cycle wPayload.crawl_id "j1" wOutcomes).1.count
      (Effect.decrActive "wc") = 1 := by
  have h := push_job_and_cycle_accounting wPayload "wc" "j1" wOutcomes rfl
  exact ⟨rfl, h.1, h.2.1⟩

/-- Claim C4: with non-negative stored counters (which every balanced
execution maintains), get_status returns none exactly when no config is
stored, and otherwise returns the CrawlStatus whose total is the count
counter, whose completed is the length of the results list, whose
active is the active counter, and whose status string is completed
exactly when active is zero and scraping otherwise. -/
theorem get_status_spec (s : CrawlState) (cid : String)
    (hc : 0 ≤ s.count) (ha : 0 ≤ s.active) :
    (CrawlManager.get_status s cid = Except.ok none ↔ s.config = none) ∧
    (s.config.isSome = true →
      CrawlManager.get_status s cid = Except.ok (some
        { id := cid,
          status := if s.active = 0 then "completed" else "scraping",
          total := s.count.toNat, completed := s.results.length,
          active := s.active.toNat })) := by
  cases hcfg : s.config with
  | none =>
    constructor
    · simp [CrawlManager.get_status, hcfg]
    · intro hs
      simp at hs
  | some c =>
    have e1 : CrawlManager.get_status s cid = Except.ok (some
        { id := cid,
          status := if s.active.toNat = 0 then "completed" else "scraping",
          total := s.count.toNat, completed := s.results.length,
          active := s.active.toNat }) := by
      simp [CrawlManager.get_status, hcfg, CrawlManager.get_count,
        CrawlManager.get_active_count, readU32, not_lt.mpr hc, not_lt.mpr ha]
    constructor
    · rw [e1]
      simp [hcfg]
    · intro _
      rw [e1]
      by_cases hz : s.active = 0
      · have hz' : s.active.toNat = 0 := by omega
        simp [hz, hz']
      · have hz' : ¬ s.active.toNat = 0 := by omega
        simp [hz, hz']

/-- Claim C4, witness: a crawl with a stored config, count 2, two
results and active 0 reports completed. -/
theorem get_status_spec_witness :
    (0 : Int) ≤ wCrawlState.count ∧ (0 : Int) ≤ wCrawlState.active ∧
    CrawlManager.get_status wCrawlState "c" = Except.ok (some
      { id := "c", status := "completed", total := 2, completed := 2,
        active := 0 }) := by
  refine ⟨by decide, by decide, ?_⟩
  have h := (get_status_spec wCrawlState "c" (by decide) (by decide)).2 rfl
  simpa using h

/-- Claim C5, counterexample: decrement_active_jobs called with active
at zero stores -1 — the counter is not clamped at zero and does become
negative (the Rust call then merely returns a u32 conversion error that
the job cycle logs). -/
theorem decrement_below_zero_cex :
    ((CrawlManager.decrement_active_jobs negCrawlState).2).active = -1 ∧
    (CrawlManager.decrement_active_jobs negCrawlState).1 =
      Except.error "u32 conversion" := by
  constructor <;> rfl

/-- Claim C5, amended: the worker does not crash — the job cycle
returns Ok for every outcome combination, including a failing
decrement, whose error is only logged — but the decrement does not
clamp: the stored active counter always becomes its old value minus
one (so it goes negative when the decrement happens at zero), and the
call reports success exactly when the new value is non-negative. -/
theorem decrement_not_clamped (s : CrawlState) (cid job_id : String)
    (oc : CycleOutcomes) :
    ((CrawlManager.decrement_active_jobs s).2).active = s.active - 1 ∧
    ((CrawlManager.decrement_active_jobs s).1 =
        Except.ok (s.active - 1).toNat ↔ 0 ≤ s.active - 1) ∧
    (Worker.handle_job_full_cycle (some cid) job_id oc).2 = true := by
  refine ⟨rfl, ?_, rfl⟩
  have e : (CrawlManager.decrement_active_jobs s).1 =
      readU32 (s.active - 1) := rfl
  rw [e]
  unfold readU32
  by_cases hneg : s.active - 1 < 0
  · rw [if_pos hneg]
    constructor
    · intro hcontra
      exact absurd hcontra (by simp)
    · intro hcontra
      omega
  · rw [if_neg hneg]
    constructor
    · intro _
      omega
    · intro _
      rfl

/-- Claim C6, counterexample: a Kickoff payload with limit = some 5 and
max_depth = some 3 is saved with limit 1000 and max_depth 10 — the
payload limit and max_depth are not taken over even when set. -/
theorem kickoff_config_ignores_payload_cex :
    (Worker.process_kickoff cexKickoff true).1.head? =
      some (Effect.saveConfig (Worker.buildConfig cexKickoff)) ∧
    (Worker.buildConfig cexKickoff).limit = 1000 ∧
    (Worker.buildConfig cexKickoff).max_depth = 10 ∧
    cexKickoff.limit = some 5 ∧ cexKickoff.max_depth = some 3 ∧
    (Worker.buildConfig cexKickoff).limit ≠ 5 := by
  refine ⟨?_, rfl, rfl, rfl, rfl, by decide⟩
  rfl

/-- Claim C6, amended: process_kickoff always builds the config from
the payload crawl id, team id, url and scrape options together with the
hard-coded defaults max_depth 10 and limit 1000 (the payload limit,
max_depth, includes and excludes are ignored; the stored CrawlConfig
has no includes or excludes fields), and the saveConfig effect is the
first effect of the handler, before any child job is pushed. -/
theorem kickoff_config_defaults (d : KickoffJobData) (seedLocked : Bool) :
    (Worker.process_kickoff d seedLocked).1.head? =
      some (Effect.saveConfig (Worker.buildConfig d)) ∧
    Worker.buildConfig d =
      { id := d.crawl_id, team_id := d.team_id, base_url := d.url,
        scrape_options := d.scrape_options, max_depth := 10,
        limit := 1000 } := by
  refine ⟨?_, rfl⟩
  rcases hds : deriveSitemapUrl d.url with _ | su
  · simp [Worker.process_kickoff, hds]
  · rcases hr : deriveRobotsUrl d.url with _ | ru
    · simp [Worker.process_kickoff, hds, hr]
    · simp [Worker.process_kickoff, hds, hr]

/-- Claim C7: pop moves the tail id of the pending list onto the
processing list; when the stored record for that id exists, the record
is rewritten with status Active and the fresh updated_at and the job is
returned; when it is missing, the id is removed from the processing
list, the record store is untouched, and none is returned. -/
theorem pop_spec (s : QueueState) (now : Int) (id : String)
    (h : s.pending.getLast? = some id) :
    ((RedisQueue.pop s now).2.pending = s.pending.dropLast) ∧
    (∀ job, getRecord s.data id = some job →
      (RedisQueue.pop s now).1 =
          some { job with status := JobStatus.active, updated_at := now } ∧
      (RedisQueue.pop s now).2.processing = id :: s.processing ∧
      getRecord (RedisQueue.pop s now).2.data id =
          some { job with status := JobStatus.active, updated_at := now }) ∧
    (getRecord s.data id = none →
      (RedisQueue.pop s now).1 = none ∧
      id ∉ (RedisQueue.pop s now).2.processing ∧
      (RedisQueue.pop s now).2.data = s.data) := by
  rcases hrec : getRecord s.data id with _ | job
  · refine ⟨?_, ?_, ?_⟩
    · simp [RedisQueue.pop, h, hrec]
    · intro job hj
      exact absurd hj (by simp)
    · intro _
      refine ⟨by simp [RedisQueue.pop, h, hrec], ?_,
        by simp [RedisQueue.pop, h, hrec]⟩
      simp [RedisQueue.pop, h, hrec, lrem, List.mem_filter]
  · refine ⟨by simp [RedisQueue.pop, h, hrec], ?_, ?_⟩
    · intro job' hj
      injection hj with hj
      subst hj
      refine ⟨by simp [RedisQueue.pop, h, hrec],
        by simp [RedisQueue.pop, h, hrec], ?_⟩
      have e2 : (RedisQueue.pop s now).2.data =
          setRecord s.data id
            { job with status := JobStatus.active, updated_at := now } := by
        simp [RedisQueue.pop, h, hrec]
      rw [e2]
      simp [getRecord, setRecord]
    · intro hn
      exact absurd hn (by simp)

/-- Claim C7, witness: popping a one-element queue whose record exists
returns the job rewritten to Active with the fresh timestamp. -/
theorem pop_spec_witness :
    wQueue.pending.getLast? = some "j1" ∧
    getRecord wQueue.data "j1" = some wJob ∧
    (RedisQueue.pop wQueue 9).1 =
      some { wJob with status := JobStatus.active, updated_at := 9 } := by
  refine ⟨rfl, rfl, ?_⟩
  exact ((pop_spec wQueue 9 "j1" rfl).2.1 wJob rfl).1

/-- Claim C8, counterexample: for the seed URL https://e.test/a/ —
well formed, absolute, with a non-root path — the code appends
sitemap.xml to the existing path instead of replacing the path: the
derived and pushed sitemap URL is https://e.test/a/sitemap.xml, while
the path replaced by /sitemap.xml would give
https://e.test/sitemap.xml. -/
theorem sitemap_url_trailing_slash_cex :
    parseSimpleUrl "https://e.test/a/" =
      some { scheme := "https", host := "e.test", path := "/a/" } ∧
    deriveSitemapUrl "https://e.test/a/" =
      some "https://e.test/a/sitemap.xml" ∧
    specSitemapUrl { scheme := "https", host := "e.test", path := "/a/" } =
      "https://e.test/sitemap.xml" ∧
    Effect.queuePush (JobPayload.kickoffSitemap
      { sitemap_url := "https://e.test/a/sitemap.xml", team_id := "team",
        crawl_id := "cid" }) ∈ (Worker.process_kickoff cexKickoffSlash true).1 ∧
    ("https://e.test/a/sitemap.xml" : String) ≠ "https://e.test/sitemap.xml" := by
  refine ⟨by decide, by decide, by decide, by decide, by decide⟩

/-- Claim C8, amended: the derived sitemap URL equals the seed URL with
its path replaced by /sitemap.xml exactly when the seed URL does not
end in a slash; when the seed URL ends in a slash, sitemap.xml is
appended to the existing path instead.  In both cases the KickoffSitemap
job carrying that URL is pushed by process_kickoff. -/
theorem sitemap_url_amended (d : KickoffJobData) (seedLocked : Bool)
    (u : SimpleUrl) (hp : parseSimpleUrl d.url = some u) :
    (endsWithSlash d.url = false →
      Effect.queuePush (JobPayload.kickoffSitemap
        { sitemap_url := specSitemapUrl u, team_id := d.team_id,
          crawl_id := d.crawl_id }) ∈
        (Worker.process_kickoff d seedLocked).1) ∧
    (endsWithSlash d.url = true →
      Effect.queuePush (JobPayload.kickoffSitemap
        { sitemap_url := d.url ++ "sitemap.xml", team_id := d.team_id,
          crawl_id := d.crawl_id }) ∈
        (Worker.process_kickoff d seedLocked).1) := by
  have hdr : deriveRobotsUrl d.url =
      some (SimpleUrl.render { u with path := "/robots.txt" }) := by
    unfold deriveRobotsUrl
    rw [hp]
    rfl
  constructor
  · intro hne
    have hds : deriveSitemapUrl d.url = some (specSitemapUrl u) := by
      unfold deriveSitemapUrl
      rw [hne]
      rw [hp]
      rfl
    simp [Worker.process_kickoff, hds, hdr, Worker.push_job,
      JobPayload.crawl_id]
  · intro he
    have hds : deriveSitemapUrl d.url = some (d.url ++ "sitemap.xml") := by
      unfold deriveSitemapUrl
      rw [he]
      rfl
    simp [Worker.process_kickoff, hds, hdr, Worker.push_job,
      JobPayload.crawl_id]

/-- Claim C8, witness: for the seed URL https://w.test/a/b (no trailing
slash) the pushed sitemap URL is the site root sitemap. -/
theorem sitemap_url_amended_witness :
    parseSimpleUrl "https://w.test/a/b" =
      some { scheme := "https", host := "w.test", path := "/a/b" } ∧
    Effect.queuePush (JobPayload.kickoffSitemap
      { sitemap_url := "https://w.test/sitemap.xml", team_id := "t",
        crawl_id := "c" }) ∈ (Worker.process_kickoff wKickoff true).1 := by
  refine ⟨by decide, ?_⟩
  have h := (sitemap_url_amended wKickoff true
      { scheme := "https", host := "w.test", path := "/a/b" }
      (by decide)).1 (by decide)
  simpa using h

/-- Claim C9: ack removes the id from the processing list, touches
nothing else, and is idempotent: a second ack of the same id leaves the
queue state unchanged (and the modelled call is total, so it
succeeds). -/
theorem ack_removes_and_idempotent (s : QueueState) (id : String) :
    id ∉ (RedisQueue.ack s id).processing ∧
    RedisQueue.ack (RedisQueue.ack s id) id = RedisQueue.ack s id ∧
    (RedisQueue.ack s id).pending = s.pending ∧
    (RedisQueue.ack s id).data = s.data := by
  refine ⟨?_, ?_, rfl, rfl⟩
  · simp [RedisQueue.ack, lrem, List.mem_filter]
  · simp [RedisQueue.ack, lrem, List.filter_filter]

/-- Claim C10: update_status for an id with no stored record returns
success and leaves the whole queue state unchanged: nothing is created
and nothing is modified. -/
theorem update_status_missing_noop (s : QueueState) (id : String)
    (st : JobStatus) (now : Int) (h : getRecord s.data id = none) :
    RedisQueue.update_status s id st now = s := by
  unfold RedisQueue.update_status
  rw [h]

/-- Claim C10, witness: updating a job id absent from an empty record
store is a no-op. -/
theorem update_status_missing_noop_witness :
    getRecord wQueueEmpty.data "jx" = none ∧
    RedisQueue.update_status wQueueEmpty "jx" JobStatus.completed 7 =
      wQueueEmpty :=
  ⟨rfl, update_status_missing_noop wQueueEmpty "jx" JobStatus.completed 7 rfl⟩

end Firecrawl
